import Mathlib

/-!
Shallow embedding of the provider-identifier codec, discovery and lifecycle
operations of the machine-controller-manager-provider-vsphere repository
(pkg/vsphere/internal and pkg/vsphere/apis/validation), together with proofs
about them. Go strings are modelled as lists of characters; Go maps over
string keys are modelled as association lists (the list order models the
unspecified iteration order of a Go map). The platform session (connection,
login, logout) is an external collaborator and is not modelled; platform
state is the list of virtual machines visible to the plugin, in visitation
order.
-/

namespace VsphereProvider

/-- A Go string, modelled as its list of characters. -/
abbrev Str := List Char

/-- The constant providerPrefix = "vsphere://" of the source. -/
def providerScheme : Str := "vsphere://".toList

/-- The literal "kubernetes.io/cluster/" used both by ListMachines and by
validateSpecTags. -/
def clusterTagHead : Str := "kubernetes.io/cluster/".toList

/-- The literal "kubernetes.io/role/" used both by ListMachines and by
validateSpecTags. -/
def roleTagHead : Str := "kubernetes.io/role/".toList

/-- strings.Split(s, "/") for a single-character separator: splits a string
into the (possibly empty) segments between occurrences of the slash
character.  Split of the empty string is one empty segment, as in Go. -/
def splitSlash : Str → List Str
  | [] => [[]]
  | c :: rest =>
    if c = '/' then [] :: splitSlash rest
    else
      match splitSlash rest with
      | [] => [[c]]
      | seg :: segs => (c :: seg) :: segs

/-- encodeProviderID of the source: empty machine id encodes to the empty
string, otherwise to providerPrefix + region + "/" + machineID. -/
def encodeProviderID (region machineID : Str) : Str :=
  if machineID = [] then [] else providerScheme ++ region ++ '/' :: machineID

/-- decodeProviderID of the source: empty pair unless the identifier starts
with the scheme and the remainder splits on "/" into exactly two parts. -/
def decodeProviderID (providerID : Str) : Str × Str :=
  if providerScheme.isPrefixOf providerID then
    match splitSlash (providerID.drop providerScheme.length) with
    | [region, machineID] => (region, machineID)
    | _ => ([], [])
  else ([], [])

/-- api.VsphereProviderSpec, restricted to the fields the verified code
reads.  tags models the key set of the Go map Tags in iteration order (tag
values are never read by the verified code). -/
structure VsphereProviderSpec where
  datastore : Str
  datastoreCluster : Str
  templateVM : Str
  computeCluster : Str
  resourcePool : Str
  hostSystem : Str
  network : Str
  region : Str
  tags : List Str
  deriving DecidableEq

/-- api.Secrets, restricted to the fields read by validation. -/
structure Secrets where
  vsphereHost : Str
  vsphereUsername : Str
  vspherePassword : Str
  userData : Str
  deriving DecidableEq

/-- A virtual machine of the platform state: its native UUID, its display
name, and the names of the custom string fields set on it (the names that
field.ByKey(sv.Key).Name resolves each CustomValue entry to). -/
structure VirtualMachine where
  uuid : Str
  name : Str
  tags : List Str
  deriving DecidableEq

/-- One step of the tag-selection loops of ListMachines and validateSpecTags:
a key matched by p overwrites the first selection, otherwise a key matched by
q overwrites the second selection. -/
def selectStep (p q : Str → Bool) (acc : Str × Str) (key : Str) : Str × Str :=
  if p key then (key, acc.2) else if q key then (acc.1, key) else acc

/-- The tag-selection loop of ListMachines: scan the spec's tag keys in
iteration order, remembering the last key starting with
"kubernetes.io/cluster/" and the last key starting with
"kubernetes.io/role/" (strings.HasPrefix). -/
def selectClusterRoleTags (keys : List Str) : Str × Str :=
  keys.foldl (selectStep (fun k => clusterTagHead.isPrefixOf k)
    (fun k => roleTagHead.isPrefixOf k)) ([], [])

/-- strings.Contains(s, sub): sub occurs somewhere in s, i.e. sub is a
prefix of some suffix of s. -/
def containsSeq (sub : Str) : Str → Bool
  | [] => sub.isPrefixOf []
  | c :: rest => sub.isPrefixOf (c :: rest) || containsSeq sub rest

/-- The tag-selection loop of validateSpecTags, which instead uses
strings.Contains: the last key containing "kubernetes.io/cluster/" anywhere
as a substring, and the last key containing "kubernetes.io/role/". -/
def selectClusterRoleTagsBySubstring (keys : List Str) : Str × Str :=
  keys.foldl (selectStep (fun k => containsSeq clusterTagHead k)
    (fun k => containsSeq roleTagHead k)) ([], [])

/-- The last element of a list, or the default when the list is empty: the
value left in a variable that a loop overwrites on every matching key. -/
def lastD : List Str → Str → Str
  | [], d => d
  | a :: l, _ => lastD l a

/-- Insertion into a Go map modelled as an association list: replace the
binding of the key when present, otherwise add it. -/
def mapInsert (m : List (Str × Str)) (k v : Str) : List (Str × Str) :=
  match m with
  | [] => [(k, v)]
  | (k', v') :: rest => if k' = k then (k, v) :: rest else (k', v') :: mapInsert rest k v

/-- The visitor loop of ListMachines over the virtual machines in scope, in
visitation order: a machine whose custom-field names contain both the
selected cluster key and the selected role key is added to the machine list
under its encoded provider id. -/
def visitMachines (clusterName nodeRole region : Str) :
    List VirtualMachine → List (Str × Str) → List (Str × Str)
  | [], machineList => machineList
  | vm :: rest, machineList =>
    visitMachines clusterName nodeRole region rest
      (if clusterName ∈ vm.tags ∧ nodeRole ∈ vm.tags then
        mapInsert machineList (encodeProviderID region vm.uuid) vm.name
      else machineList)

/-- ListMachines of the source: select the cluster and role tag keys from the
spec's tags; if either is missing return the empty machine list, otherwise
scan every machine in scope. -/
def ListMachines (spec : VsphereProviderSpec) (state : List VirtualMachine) :
    List (Str × Str) :=
  if (selectClusterRoleTags spec.tags).1 = [] ∨ (selectClusterRoleTags spec.tags).2 = [] then
    []
  else
    visitMachines (selectClusterRoleTags spec.tags).1 (selectClusterRoleTags spec.tags).2
      spec.region state []

/-- The error message of validation.go for a missing datastore selector. -/
def datastoreRequiredErr : String := "either datastoreCluster or datastore field is required"

/-- The error message of validation.go for a missing template VM. -/
def templateVMRequiredErr : String := "templateVM is a required field"

/-- The error message of validation.go for missing compute-placement
selectors. -/
def computePlacementRequiredErr : String :=
  "either computeCluster or resourcePool or hostSystem field is required"

/-- The error message of validation.go for a missing network. -/
def networkRequiredErr : String := "network is a required field"

/-- The error message of validation.go for a missing cluster tag. -/
def clusterTagRequiredErr : String := "tag required of the form kubernetes.io/cluster/****"

/-- The error message of validation.go for a missing role tag. -/
def roleTagRequiredErr : String := "tag required of the form kubernetes.io/role/****"

/-- The error message of validation.go for a missing vsphereHost secret. -/
def hostRequiredErr : String := "Secret vsphereHost is required field"

/-- The error message of validation.go for a missing vsphereUsername secret. -/
def usernameRequiredErr : String := "Secret vsphereUsername is required field"

/-- The error message of validation.go for a missing vspherePassword secret. -/
def passwordRequiredErr : String := "Secret vspherePassword is required field"

/-- The error message of validation.go for missing user data. -/
def userDataRequiredErr : String := "Secret userData is required field"

/-- validateSecrets of validation.go. -/
def validateSecrets (reference : Secrets) : List String :=
  (if reference.vsphereHost = [] then [hostRequiredErr] else []) ++
  (if reference.vsphereUsername = [] then [usernameRequiredErr] else []) ++
  (if reference.vspherePassword = [] then [passwordRequiredErr] else []) ++
  (if reference.userData = [] then [userDataRequiredErr] else [])

/-- validateSpecTags of validation.go: the tag-selection loop with
strings.Contains, then one error per missing selection. -/
def validateSpecTags (tags : List Str) : List String :=
  (if (selectClusterRoleTagsBySubstring tags).1 = [] then [clusterTagRequiredErr] else []) ++
  (if (selectClusterRoleTagsBySubstring tags).2 = [] then [roleTagRequiredErr] else [])

/-- ValidateVsphereProviderSpec of validation.go. -/
def ValidateVsphereProviderSpec (spec : VsphereProviderSpec) (secrets : Secrets) :
    List String :=
  (if spec.datastore = [] ∧ spec.datastoreCluster = [] then [datastoreRequiredErr] else []) ++
  (if spec.templateVM = [] then [templateVMRequiredErr] else []) ++
  (if spec.computeCluster = [] ∧ spec.resourcePool = [] ∧ spec.hostSystem = [] then
    [computePlacementRequiredErr] else []) ++
  (if spec.network = [] then [networkRequiredErr] else []) ++
  validateSecrets secrets ++
  validateSpecTags spec.tags

/-- Discovery outcomes that are surfaced as errors by the Discovery Engine. -/
inductive FindError where
  | notFound
  | ambiguousName
  deriving DecidableEq

/-- Modelled from the spec: findVM of the repository's discovery file, which
is not under src/.  Discovery Engine: when the native machine id is
non-empty, attempt a direct lookup by native id; when that finds nothing (or
the id is empty), look up by display name, tolerating zero (not-found) or
one match; more than one name match is an ambiguous-name error. -/
def findVM (state : List VirtualMachine) (machineName machineID : Str) :
    Except FindError VirtualMachine :=
  match (if machineID ≠ [] then state.find? (fun vm => vm.uuid == machineID) else none) with
  | some vm => Except.ok vm
  | none =>
    match state.filter (fun vm => vm.name == machineName) with
    | [] => Except.error FindError.notFound
    | [vm] => Except.ok vm
    | _ => Except.error FindError.ambiguousName

/-- Modelled from the spec: deleteVM of the repository's discovery file,
which is not under src/.  Resolve via the Discovery Engine; if found,
destroy the machine and return its native id; if not found, treat as success
and return the empty id with the state unchanged (idempotent delete). -/
def deleteVM (state : List VirtualMachine) (machineName machineID : Str) :
    Except FindError (Str × List VirtualMachine) :=
  match findVM state machineName machineID with
  | Except.ok vm => Except.ok (vm.uuid, state.filter (fun v => v.uuid != vm.uuid))
  | Except.error FindError.notFound => Except.ok ([], state)
  | Except.error e => Except.error e

/-- Modelled from the spec: shutDownVM of the repository's discovery file,
which is not under src/.  Resolve via the Discovery Engine; if found, power
the machine off and return its native id; if not found, treat as success and
return the empty id. -/
def shutDownVM (state : List VirtualMachine) (machineName machineID : Str) :
    Except FindError (Str × List VirtualMachine) :=
  match findVM state machineName machineID with
  | Except.ok vm => Except.ok (vm.uuid, state)
  | Except.error FindError.notFound => Except.ok ([], state)
  | Except.error e => Except.error e

/-- DeleteMachine of the source: decode the incoming provider id, discard the
region, delete by name and native id, and re-encode the found id with the
spec's region. -/
def DeleteMachine (state : List VirtualMachine) (machineName providerID : Str)
    (spec : VsphereProviderSpec) : Except FindError (Str × List VirtualMachine) :=
  match deleteVM state machineName (decodeProviderID providerID).2 with
  | Except.error e => Except.error e
  | Except.ok (foundMachineID, state') =>
    Except.ok (encodeProviderID spec.region foundMachineID, state')

/-- ShutDownMachine of the source: decode the incoming provider id, discard
the region, shut down by name and native id, and re-encode the found id with
the spec's region. -/
def ShutDownMachine (state : List VirtualMachine) (machineName providerID : Str)
    (spec : VsphereProviderSpec) : Except FindError (Str × List VirtualMachine) :=
  match shutDownVM state machineName (decodeProviderID providerID).2 with
  | Except.error e => Except.error e
  | Except.ok (foundMachineID, state') =>
    Except.ok (encodeProviderID spec.region foundMachineID, state')

/-- GetMachineStatus of the source: decode the incoming provider id, discard
the region, resolve by name and native id, and re-encode the found machine's
uuid with the spec's region. -/
def GetMachineStatus (state : List VirtualMachine) (machineName providerID : Str)
    (spec : VsphereProviderSpec) : Except FindError Str :=
  match findVM state machineName (decodeProviderID providerID).2 with
  | Except.error e => Except.error e
  | Except.ok vm => Except.ok (encodeProviderID spec.region vm.uuid)

/-- A concrete provider spec (region "reg", one cluster tag key and one role
tag key) used to instantiate general theorems below. -/
def sampleSpec : VsphereProviderSpec :=
  ⟨[], [], [], [], [], [], [], "reg".toList,
    ["kubernetes.io/cluster/a".toList, "kubernetes.io/role/r".toList]⟩

/-- sampleSpec with its two tag keys listed in the opposite iteration
order. -/
def sampleSpecPerm : VsphereProviderSpec :=
  ⟨[], [], [], [], [], [], [], "reg".toList,
    ["kubernetes.io/role/r".toList, "kubernetes.io/cluster/a".toList]⟩

/-- A concrete machine carrying both of sampleSpec's tag keys. -/
def sampleVM : VirtualMachine :=
  ⟨"u".toList, "n".toList,
    ["kubernetes.io/cluster/a".toList, "kubernetes.io/role/r".toList]⟩

/-- A spec whose tag map holds two distinct cluster keys and one role key,
in one iteration order. -/
def orderSpecA : VsphereProviderSpec :=
  ⟨[], [], [], [], [], [], [], [],
    ["kubernetes.io/cluster/a".toList, "kubernetes.io/cluster/b".toList,
      "kubernetes.io/role/r".toList]⟩

/-- orderSpecA with the two cluster keys in the opposite iteration order. -/
def orderSpecB : VsphereProviderSpec :=
  ⟨[], [], [], [], [], [], [], [],
    ["kubernetes.io/cluster/b".toList, "kubernetes.io/cluster/a".toList,
      "kubernetes.io/role/r".toList]⟩

/-- A machine tagged with the first cluster key and the role key. -/
def orderVM : VirtualMachine :=
  ⟨"u".toList, "n".toList,
    ["kubernetes.io/cluster/a".toList, "kubernetes.io/role/r".toList]⟩

theorem splitSlash_of_not_mem (l : Str) (h : '/' ∉ l) : splitSlash l = [l] := by
  induction l with
  | nil => rfl
  | cons c rest ih =>
    have hc : ¬ c = '/' := fun hc => h (hc ▸ List.mem_cons_self c rest)
    have hrest : '/' ∉ rest := fun hm => h (List.mem_cons_of_mem c hm)
    simp [splitSlash, hc, ih hrest]

theorem splitSlash_append (r i : Str) (hr : '/' ∉ r) (hi : '/' ∉ i) :
    splitSlash (r ++ '/' :: i) = [r, i] := by
  induction r with
  | nil => simp [splitSlash, splitSlash_of_not_mem i hi]
  | cons c rest ih =>
    have hc : ¬ c = '/' := fun hc => hr (hc ▸ List.mem_cons_self c rest)
    have hrest : '/' ∉ rest := fun hm => hr (List.mem_cons_of_mem c hm)
    simp [splitSlash, hc, ih hrest]

theorem isPrefixOf_append_self (l t : Str) : l.isPrefixOf (l ++ t) := by
  induction l with
  | nil =>
    show ([] : Str).isPrefixOf t = true
    cases t <;> rfl
  | cons c cs ih => simp [List.cons_append, List.isPrefixOf, ih]

/-- C4: For every region string (including the empty one), encoding an empty
native machine id yields the empty provider identifier. -/
theorem encodeProviderID_empty_machineID (region : Str) :
    encodeProviderID region [] = [] := by
  simp [encodeProviderID]

/-- C1 counterexample: for the non-empty pair (region, machineID) =
("a/b", "c") — the region contains a slash — decoding the encoding does not
return the original pair, so the round-trip law fails for some non-empty
pairs. -/
theorem decode_encode_fails_on_slash :
    ("a/b".toList ≠ ([] : Str) ∧ "c".toList ≠ ([] : Str)) ∧
      decodeProviderID (encodeProviderID "a/b".toList "c".toList) ≠
        ("a/b".toList, "c".toList) := by
  decide

/-- C1 (amended): for every non-empty region and machine id neither of which
contains a slash, decoding the encoding returns the original pair. -/
theorem decode_encode_roundtrip (region machineID : Str)
    (hne : machineID ≠ []) (hr : '/' ∉ region) (hi : '/' ∉ machineID) :
    decodeProviderID (encodeProviderID region machineID) = (region, machineID) := by
  have henc : encodeProviderID region machineID =
      providerScheme ++ (region ++ '/' :: machineID) := by
    simp [encodeProviderID, hne]
  rw [henc]
  have hpre : providerScheme.isPrefixOf (providerScheme ++ (region ++ '/' :: machineID)) :=
    isPrefixOf_append_self _ _
  have hdrop : (providerScheme ++ (region ++ '/' :: machineID)).drop providerScheme.length =
      region ++ '/' :: machineID := List.drop_left _ _
  simp [decodeProviderID, hpre, hdrop, splitSlash_append region machineID hr hi]

/-- C1 witness: the round-trip theorem applied at region "eu", id "abc". -/
theorem decode_encode_roundtrip_witness :
    decodeProviderID (encodeProviderID "eu".toList "abc".toList) =
      ("eu".toList, "abc".toList) :=
  decode_encode_roundtrip "eu".toList "abc".toList (by decide) (by decide) (by decide)

/-- C2 counterexample: "vsphere:///x" starts with the scheme and its
remainder splits into two segments of which the first is empty, so by the
claim decode should return both empty; the code instead returns ("", "x"). -/
theorem decode_empty_segment_not_both_empty :
    splitSlash ("vsphere:///x".toList.drop providerScheme.length) = [[], ['x']] ∧
      decodeProviderID "vsphere:///x".toList = ([], ['x']) ∧
      (([], ['x']) : Str × Str) ≠ (([] : Str), ([] : Str)) := by
  decide

/-- C2 (amended): decodeProviderID is total by construction, and for every
string that does not start with the scheme prefix, or whose remainder after
the prefix does not split into exactly two slash-separated segments (segments
may be empty), it returns the pair of empty strings. -/
theorem decodeProviderID_malformed (s : Str)
    (h : ¬ providerScheme.isPrefixOf s ∨
      (splitSlash (s.drop providerScheme.length)).length ≠ 2) :
    decodeProviderID s = ([], []) := by
  unfold decodeProviderID
  rcases h with h | h
  · simp [h]
  · by_cases hp : providerScheme.isPrefixOf s
    · simp only [hp, if_true]
      rcases hsp : splitSlash (s.drop providerScheme.length) with _ | ⟨a, _ | ⟨b, _ | _⟩⟩ <;>
        simp_all
    · simp [hp]

/-- C2 witness: the malformed-input theorem applied to the string "garbage". -/
theorem decodeProviderID_malformed_witness :
    decodeProviderID "garbage".toList = ([], []) :=
  decodeProviderID_malformed "garbage".toList (by decide)

theorem foldl_selectStep_fst (p q : Str → Bool) (keys : List Str) (acc : Str × Str) :
    (keys.foldl (selectStep p q) acc).1 = lastD (keys.filter p) acc.1 := by
  induction keys generalizing acc with
  | nil => rfl
  | cons k ks ih =>
    rw [List.foldl_cons]
    by_cases hp : p k
    · have hstep : selectStep p q acc k = (k, acc.2) := by
        unfold selectStep; rw [if_pos hp]
      have hfil : List.filter p (k :: ks) = k :: List.filter p ks := by
        rw [List.filter_cons, if_pos hp]
      rw [hstep, ih, hfil]
      rfl
    · have hfil : List.filter p (k :: ks) = List.filter p ks := by
        rw [List.filter_cons, if_neg hp]
      by_cases hq : q k
      · have hstep : selectStep p q acc k = (acc.1, k) := by
          unfold selectStep; rw [if_neg hp, if_pos hq]
        rw [hstep, ih, hfil]
      · have hstep : selectStep p q acc k = acc := by
          unfold selectStep; rw [if_neg hp, if_neg hq]
        rw [hstep, ih, hfil]

theorem foldl_selectStep_snd (p q : Str → Bool) (keys : List Str) (acc : Str × Str) :
    (keys.foldl (selectStep p q) acc).2 =
      lastD (keys.filter (fun k => !p k && q k)) acc.2 := by
  induction keys generalizing acc with
  | nil => rfl
  | cons k ks ih =>
    rw [List.foldl_cons]
    by_cases hp : p k
    · have hstep : selectStep p q acc k = (k, acc.2) := by
        unfold selectStep; rw [if_pos hp]
      have hcond : (!p k && q k) = false := by rw [hp]; rfl
      have hfil : List.filter (fun k => !p k && q k) (k :: ks) =
          List.filter (fun k => !p k && q k) ks := by
        rw [List.filter_cons, hcond, if_neg Bool.false_ne_true]
      rw [hstep, ih, hfil]
    · have hp' : p k = false := by revert hp; cases p k <;> simp
      by_cases hq : q k
      · have hstep : selectStep p q acc k = (acc.1, k) := by
          unfold selectStep; rw [if_neg hp, if_pos hq]
        have hcond : (!p k && q k) = true := by rw [hp', hq]; rfl
        have hfil : List.filter (fun k => !p k && q k) (k :: ks) =
            k :: List.filter (fun k => !p k && q k) ks := by
          rw [List.filter_cons, hcond, if_pos rfl]
        rw [hstep, ih, hfil]
        rfl
      · have hq' : q k = false := by revert hq; cases q k <;> simp
        have hstep : selectStep p q acc k = acc := by
          unfold selectStep; rw [if_neg hp, if_neg hq]
        have hcond : (!p k && q k) = false := by rw [hp', hq']; rfl
        have hfil : List.filter (fun k => !p k && q k) (k :: ks) =
            List.filter (fun k => !p k && q k) ks := by
          rw [List.filter_cons, hcond, if_neg Bool.false_ne_true]
        rw [hstep, ih, hfil]

theorem mem_keys_mapInsert (m : List (Str × Str)) (k v k' : Str) :
    k' ∈ (mapInsert m k v).map Prod.fst ↔ k' = k ∨ k' ∈ m.map Prod.fst := by
  induction m with
  | nil => simp [mapInsert]
  | cons p rest ih =>
    obtain ⟨k0, v0⟩ := p
    by_cases h : k0 = k
    · subst h; simp [mapInsert]
    · simp only [mapInsert, if_neg h, List.map_cons, List.mem_cons, ih]
      tauto

theorem mem_keys_visitMachines (c r region : Str) (state : List VirtualMachine)
    (acc : List (Str × Str)) (k : Str) :
    k ∈ (visitMachines c r region state acc).map Prod.fst ↔
      k ∈ acc.map Prod.fst ∨
        ∃ vm ∈ state, (c ∈ vm.tags ∧ r ∈ vm.tags) ∧
          k = encodeProviderID region vm.uuid := by
  induction state generalizing acc with
  | nil => simp [visitMachines]
  | cons vm rest ih =>
    by_cases h : c ∈ vm.tags ∧ r ∈ vm.tags
    · simp only [visitMachines]
      rw [if_pos h, ih, mem_keys_mapInsert]
      simp only [List.mem_cons]
      constructor
      · rintro ((rfl | hm) | ⟨vm', hvm', hmatch, rfl⟩)
        · exact Or.inr ⟨vm, Or.inl rfl, h, rfl⟩
        · exact Or.inl hm
        · exact Or.inr ⟨vm', Or.inr hvm', hmatch, rfl⟩
      · rintro (hm | ⟨vm', (rfl | hvm'), hmatch, rfl⟩)
        · exact Or.inl (Or.inr hm)
        · exact Or.inl (Or.inl rfl)
        · exact Or.inr ⟨vm', hvm', hmatch, rfl⟩
    · simp only [visitMachines]
      rw [if_neg h, ih]
      simp only [List.mem_cons]
      constructor
      · rintro (hm | ⟨vm', hvm', hmatch, rfl⟩)
        · exact Or.inl hm
        · exact Or.inr ⟨vm', Or.inr hvm', hmatch, rfl⟩
      · rintro (hm | ⟨vm', (rfl | hvm'), hmatch, rfl⟩)
        · exact Or.inl hm
        · exact absurd hmatch h
        · exact Or.inr ⟨vm', hvm', hmatch, rfl⟩

/-- C3 counterexample: a spec carrying both ClusterRoleTags (cluster key
"kubernetes.io/cluster/a") and a machine whose tag values contain a key
matching kubernetes.io/cluster/* (namely "kubernetes.io/cluster/b") and a
key matching kubernetes.io/role/*; the claim says the machine is included,
but ListMachines returns the empty mapping because matching is by equality
with the spec's selected keys, not by wildcard. -/
theorem listMachines_wildcard_mismatch :
    (((selectClusterRoleTags
        ["kubernetes.io/cluster/a".toList, "kubernetes.io/role/r".toList]).1 ≠ [] ∧
      (selectClusterRoleTags
        ["kubernetes.io/cluster/a".toList, "kubernetes.io/role/r".toList]).2 ≠ []) ∧
      (∃ k ∈ ["kubernetes.io/cluster/b".toList, "kubernetes.io/role/r".toList],
        clusterTagHead.isPrefixOf k) ∧
      (∃ k ∈ ["kubernetes.io/cluster/b".toList, "kubernetes.io/role/r".toList],
        roleTagHead.isPrefixOf k)) ∧
    ListMachines
      ⟨[], [], [], [], [], [], [], [],
        ["kubernetes.io/cluster/a".toList, "kubernetes.io/role/r".toList]⟩
      [⟨"u".toList, "n".toList,
        ["kubernetes.io/cluster/b".toList, "kubernetes.io/role/r".toList]⟩] = [] := by
  decide

/-- C3 (amended): when the spec carries both ClusterRoleTags, a machine's
provider id appears in the result of ListMachines if and only if some
visited machine with that encoded uuid carries, among its custom-field tag
values, both the specific cluster key and the specific role key selected
from the spec's tags (equality with the selected keys, not wildcard
matching). -/
theorem listMachines_mem_iff (spec : VsphereProviderSpec)
    (state : List VirtualMachine) (k : Str)
    (h1 : (selectClusterRoleTags spec.tags).1 ≠ [])
    (h2 : (selectClusterRoleTags spec.tags).2 ≠ []) :
    k ∈ (ListMachines spec state).map Prod.fst ↔
      ∃ vm ∈ state, ((selectClusterRoleTags spec.tags).1 ∈ vm.tags ∧
        (selectClusterRoleTags spec.tags).2 ∈ vm.tags) ∧
        k = encodeProviderID spec.region vm.uuid := by
  unfold ListMachines
  rw [if_neg (not_or.mpr ⟨h1, h2⟩), mem_keys_visitMachines]
  simp only [List.map_nil, List.not_mem_nil, false_or]

/-- C3 witness: the membership characterization applied to the sample spec
and a one-machine state carrying both selected keys. -/
theorem listMachines_mem_iff_witness :
    encodeProviderID "reg".toList "u".toList ∈
      (ListMachines sampleSpec [sampleVM]).map Prod.fst ↔
      ∃ vm ∈ [sampleVM],
        ((selectClusterRoleTags sampleSpec.tags).1 ∈ vm.tags ∧
          (selectClusterRoleTags sampleSpec.tags).2 ∈ vm.tags) ∧
        encodeProviderID "reg".toList "u".toList =
          encodeProviderID sampleSpec.region vm.uuid :=
  listMachines_mem_iff sampleSpec [sampleVM]
    (encodeProviderID "reg".toList "u".toList) (by decide) (by decide)

theorem listMachines_empty_of_missing_tag (spec : VsphereProviderSpec)
    (h : (∀ key ∈ spec.tags, ¬ clusterTagHead.isPrefixOf key) ∨
         (∀ key ∈ spec.tags, ¬ roleTagHead.isPrefixOf key)) :
    ∀ state, ListMachines spec state = [] := by
  intro state
  unfold ListMachines
  rcases h with h | h
  · have hfil : spec.tags.filter (fun k => clusterTagHead.isPrefixOf k) = [] :=
      List.filter_eq_nil_iff.mpr (by intro a ha; simpa using h a ha)
    have h1 : (selectClusterRoleTags spec.tags).1 = [] := by
      unfold selectClusterRoleTags
      rw [foldl_selectStep_fst, hfil]
      rfl
    simp [h1]
  · have hfil : spec.tags.filter
        (fun k => !clusterTagHead.isPrefixOf k && roleTagHead.isPrefixOf k) = [] :=
      List.filter_eq_nil_iff.mpr (by intro a ha; simp [h a ha])
    have h2 : (selectClusterRoleTags spec.tags).2 = [] := by
      unfold selectClusterRoleTags
      rw [foldl_selectStep_snd, hfil]
      rfl
    simp [h2]

/-- C6: a spec whose tag keys include none with the cluster prefix, or none
with the role prefix, makes ListMachines return the empty mapping for every
platform state (the scan is never consulted), with no error possible. -/
theorem listMachines_missing_tag_empty (spec : VsphereProviderSpec)
    (h : (∀ key ∈ spec.tags, ¬ clusterTagHead.isPrefixOf key) ∨
         (∀ key ∈ spec.tags, ¬ roleTagHead.isPrefixOf key)) :
    ∀ state, ListMachines spec state = [] :=
  listMachines_empty_of_missing_tag spec h

/-- C6 witness: a spec with a cluster tag but no role tag yields the empty
mapping on a non-empty platform state. -/
theorem listMachines_missing_tag_empty_witness :
    ListMachines
      ⟨[], [], [], [], [], [], [], [], ["kubernetes.io/cluster/a".toList]⟩
      [⟨"u".toList, "n".toList, ["kubernetes.io/cluster/a".toList]⟩] = [] :=
  listMachines_missing_tag_empty _ (Or.inr (by decide)) _

theorem mem_if_singleton {c : Prop} [Decidable c] {e x : String} :
    x ∈ (if c then [e] else ([] : List String)) ↔ c ∧ x = e := by
  split_ifs with h <;> simp [h]

theorem compute_err_notin_validateSecrets (s : Secrets) :
    computePlacementRequiredErr ∉ validateSecrets s := by
  unfold validateSecrets
  simp only [List.mem_append, mem_if_singleton]
  rintro (((⟨-, h⟩ | ⟨-, h⟩) | ⟨-, h⟩) | ⟨-, h⟩) <;> exact absurd h (by decide)

theorem compute_err_notin_validateSpecTags (t : List Str) :
    computePlacementRequiredErr ∉ validateSpecTags t := by
  unfold validateSpecTags
  simp only [List.mem_append, mem_if_singleton]
  rintro (⟨-, h⟩ | ⟨-, h⟩) <;> exact absurd h (by decide)

/-- C8: validation reports the compute-placement error exactly when
ComputeCluster, ResourcePool and HostSystem are all empty; when at least one
of the three is non-empty, no such error is reported. -/
theorem validate_compute_placement_iff (spec : VsphereProviderSpec) (secrets : Secrets) :
    computePlacementRequiredErr ∈ ValidateVsphereProviderSpec spec secrets ↔
      (spec.computeCluster = [] ∧ spec.resourcePool = [] ∧ spec.hostSystem = []) := by
  unfold ValidateVsphereProviderSpec
  simp only [List.mem_append, mem_if_singleton]
  constructor
  · rintro (((((⟨-, h⟩ | ⟨-, h⟩) | ⟨hc, -⟩) | ⟨-, h⟩) | hsec) | htag)
    · exact absurd h (by decide)
    · exact absurd h (by decide)
    · exact hc
    · exact absurd h (by decide)
    · exact absurd hsec (compute_err_notin_validateSecrets secrets)
    · exact absurd htag (compute_err_notin_validateSpecTags spec.tags)
  · intro h
    exact Or.inl (Or.inl (Or.inl (Or.inr ⟨h, trivial⟩)))

/-- C9: the tag map whose only keys are "x-kubernetes.io/cluster/c" and
"x-kubernetes.io/role/r" passes validateSpecTags with no errors (substring
matching), yet ListMachines treats the ClusterRoleTags as absent (prefix
matching) and returns the empty mapping for every platform state. -/
theorem validateTags_substring_vs_scan :
    validateSpecTags
      ["x-kubernetes.io/cluster/c".toList, "x-kubernetes.io/role/r".toList] = [] ∧
    ∀ (spec : VsphereProviderSpec) (state : List VirtualMachine),
      spec.tags = ["x-kubernetes.io/cluster/c".toList, "x-kubernetes.io/role/r".toList] →
      ListMachines spec state = [] := by
  refine ⟨by decide, ?_⟩
  intro spec state htags
  apply listMachines_empty_of_missing_tag
  left
  rw [htags]
  decide

/-- C9 witness: the second half applied to a concrete spec holding exactly
those two tag keys, on a non-empty platform state. -/
theorem validateTags_substring_vs_scan_witness :
    ListMachines
      ⟨[], [], [], [], [], [], [], [],
        ["x-kubernetes.io/cluster/c".toList, "x-kubernetes.io/role/r".toList]⟩
      [sampleVM] = [] :=
  validateTags_substring_vs_scan.2
    ⟨[], [], [], [], [], [], [], [],
      ["x-kubernetes.io/cluster/c".toList, "x-kubernetes.io/role/r".toList]⟩
    [sampleVM] rfl

/-- C5: when no machine is resolvable by the decoded native id or by name,
DeleteMachine succeeds with the empty provider id and an unchanged state,
and a second DeleteMachine on that state succeeds the same way. -/
theorem deleteMachine_idempotent_absent (state : List VirtualMachine)
    (machineName providerID : Str) (spec : VsphereProviderSpec)
    (h : findVM state machineName (decodeProviderID providerID).2 =
      Except.error FindError.notFound) :
    ∃ state', DeleteMachine state machineName providerID spec = Except.ok ([], state') ∧
      DeleteMachine state' machineName providerID spec = Except.ok ([], state') := by
  refine ⟨state, ?_, ?_⟩
  all_goals
    unfold DeleteMachine deleteVM
    rw [h]
    simp [encodeProviderID]

/-- C5 witness: deleting on the empty platform state with an empty provider
id and name succeeds twice with the empty id. -/
theorem deleteMachine_idempotent_absent_witness :
    ∃ state', DeleteMachine [] [] [] sampleSpec = Except.ok ([], state') ∧
      DeleteMachine state' [] [] sampleSpec = Except.ok ([], state') :=
  deleteMachine_idempotent_absent [] [] [] sampleSpec rfl

/-- C7: the region decoded from the incoming provider identifier is
discarded: two identifiers with the same native-id component produce
identical results for DeleteMachine, ShutDownMachine and GetMachineStatus,
and every successfully returned identifier is the encoding of some machine
id with the spec's region. -/
theorem region_not_crosschecked (state : List VirtualMachine) (machineName : Str)
    (spec : VsphereProviderSpec) (providerID providerID' : Str)
    (h : (decodeProviderID providerID).2 = (decodeProviderID providerID').2) :
    (DeleteMachine state machineName providerID spec =
        DeleteMachine state machineName providerID' spec ∧
      ShutDownMachine state machineName providerID spec =
        ShutDownMachine state machineName providerID' spec ∧
      GetMachineStatus state machineName providerID spec =
        GetMachineStatus state machineName providerID' spec) ∧
    ((∀ res state',
        DeleteMachine state machineName providerID spec = Except.ok (res, state') →
        ∃ mid, res = encodeProviderID spec.region mid) ∧
      (∀ res state',
        ShutDownMachine state machineName providerID spec = Except.ok (res, state') →
        ∃ mid, res = encodeProviderID spec.region mid) ∧
      (∀ res, GetMachineStatus state machineName providerID spec = Except.ok res →
        ∃ mid, res = encodeProviderID spec.region mid)) := by
  constructor
  · refine ⟨?_, ?_, ?_⟩
    · unfold DeleteMachine; rw [h]
    · unfold ShutDownMachine; rw [h]
    · unfold GetMachineStatus; rw [h]
  · refine ⟨?_, ?_, ?_⟩
    · intro res state' hres
      unfold DeleteMachine at hres
      cases hdel : deleteVM state machineName (decodeProviderID providerID).2 with
      | error e => rw [hdel] at hres; simp at hres
      | ok pair =>
        obtain ⟨fid, st⟩ := pair
        rw [hdel] at hres
        simp at hres
        exact ⟨fid, hres.1.symm⟩
    · intro res state' hres
      unfold ShutDownMachine at hres
      cases hsd : shutDownVM state machineName (decodeProviderID providerID).2 with
      | error e => rw [hsd] at hres; simp at hres
      | ok pair =>
        obtain ⟨fid, st⟩ := pair
        rw [hsd] at hres
        simp at hres
        exact ⟨fid, hres.1.symm⟩
    · intro res hres
      unfold GetMachineStatus at hres
      cases hf : findVM state machineName (decodeProviderID providerID).2 with
      | error e => rw [hf] at hres; simp at hres
      | ok vm =>
        rw [hf] at hres
        simp at hres
        exact ⟨vm.uuid, hres.symm⟩

/-- C7 witness: the result-equality conjunct applied to two identifiers that
differ only in their embedded region. -/
theorem region_not_crosschecked_witness :
    DeleteMachine [] [] "vsphere://r1/u".toList sampleSpec =
      DeleteMachine [] [] "vsphere://r2/u".toList sampleSpec :=
  ((region_not_crosschecked [] [] sampleSpec "vsphere://r1/u".toList
      "vsphere://r2/u".toList (by decide)).1).1

theorem lastD_cons_mem (t : List Str) (a d : Str) : lastD (a :: t) d ∈ a :: t := by
  induction t generalizing a d with
  | nil => simp [lastD]
  | cons b t' ih => exact List.mem_cons_of_mem a (ih b a)

theorem lastD_eq_of_perm_allEq {l1 l2 : List Str} (d : Str) (hp : l1.Perm l2)
    (h : ∀ a ∈ l1, ∀ b ∈ l1, a = b) : lastD l1 d = lastD l2 d := by
  cases l1 with
  | nil =>
    have hnil : l2 = [] := hp.symm.eq_nil
    rw [hnil]
  | cons a t =>
    cases l2 with
    | nil => exact absurd hp.eq_nil (List.cons_ne_nil a t)
    | cons b t2 =>
      have m1 : lastD (a :: t) d ∈ a :: t := lastD_cons_mem t a d
      have m2 : lastD (b :: t2) d ∈ a :: t := hp.mem_iff.mpr (lastD_cons_mem t2 b d)
      exact h _ m1 _ m2

/-- C10: with two distinct cluster keys in the tag map, two iteration orders
of the same key set make ListMachines return different mappings on the same
platform state; with at most one key per prefix, ListMachines gives the same
result for every iteration order of the same key set. -/
theorem listMachines_iteration_order :
    (orderSpecA.tags.Perm orderSpecB.tags ∧ orderSpecA.region = orderSpecB.region ∧
      ListMachines orderSpecA [orderVM] ≠ ListMachines orderSpecB [orderVM]) ∧
    ∀ (spec1 spec2 : VsphereProviderSpec) (state : List VirtualMachine),
      spec1.region = spec2.region → spec1.tags.Perm spec2.tags →
      (∀ k1 ∈ spec1.tags, ∀ k2 ∈ spec1.tags,
        clusterTagHead.isPrefixOf k1 → clusterTagHead.isPrefixOf k2 → k1 = k2) →
      (∀ k1 ∈ spec1.tags, ∀ k2 ∈ spec1.tags,
        roleTagHead.isPrefixOf k1 → roleTagHead.isPrefixOf k2 → k1 = k2) →
      ListMachines spec1 state = ListMachines spec2 state := by
  constructor
  · exact ⟨by decide, rfl, by decide⟩
  · intro spec1 spec2 state hreg hperm hc hr
    have h1 : (selectClusterRoleTags spec1.tags).1 = (selectClusterRoleTags spec2.tags).1 := by
      unfold selectClusterRoleTags
      rw [foldl_selectStep_fst, foldl_selectStep_fst]
      refine lastD_eq_of_perm_allEq [] (hperm.filter _) ?_
      intro a ha b hb
      have ha' := List.mem_filter.mp ha
      have hb' := List.mem_filter.mp hb
      exact hc a ha'.1 b hb'.1 ha'.2 hb'.2
    have h2 : (selectClusterRoleTags spec1.tags).2 = (selectClusterRoleTags spec2.tags).2 := by
      unfold selectClusterRoleTags
      rw [foldl_selectStep_snd, foldl_selectStep_snd]
      refine lastD_eq_of_perm_allEq [] (hperm.filter _) ?_
      intro a ha b hb
      have ha' := List.mem_filter.mp ha
      have hb' := List.mem_filter.mp hb
      have hqa := (Bool.and_eq_true _ _).mp ha'.2
      have hqb := (Bool.and_eq_true _ _).mp hb'.2
      exact hr a ha'.1 b hb'.1 hqa.2 hqb.2
    unfold ListMachines
    rw [h1, h2, hreg]

/-- C10 witness: the determinism half applied to the sample spec and its
reordered twin, which carry one cluster key and one role key. -/
theorem listMachines_iteration_order_witness :
    ListMachines sampleSpec [sampleVM] = ListMachines sampleSpecPerm [sampleVM] :=
  listMachines_iteration_order.2 sampleSpec sampleSpecPerm [sampleVM] rfl
    (by decide) (by decide) (by decide)

end VsphereProvider
